import Mathlib

/-!
Verification of the Lucia Drizzle PostgreSQL session adapter
(`packages/adapter-drizzle/src/drivers/postgresql.ts`).

Rows of the session and user tables are modelled as association lists from
column names to values; a JavaScript object produced by destructuring or by an
object literal with spread is modelled the same way, with first-key-wins lookup
and literal-spread overwrite semantics.  Timestamps are natural numbers,
identifiers are strings.  The database visible to one adapter is a pair of
tables (lists of rows); each adapter operation is a pure function on that
state, translated clause by clause from the Drizzle query it issues.
-/

namespace LuciaDrizzle

/-- A column value: identifiers and attribute payloads are strings, the
`expiresAt` timestamp is a natural number. -/
inductive Val where
  | str (s : String)
  | time (t : Nat)
deriving DecidableEq

/-- A table row / plain object: association list from column name to value. -/
abbrev Row := List (String × Val)

/-- Property lookup: first entry with the given key, as in a JS object or a
SQL row projection. -/
def rowLookup (r : Row) (k : String) : Option Val :=
  match r with
  | [] => none
  | (k2, v) :: rest => if k2 = k then some v else rowLookup rest k

/-- Whether the object already has the key (used for spread overwrite). -/
def rowHasKey (r : Row) (k : String) : Bool :=
  r.any (fun p => decide (p.1 = k))

/-- Assigning a key in a JS object: overwrite in place when present (keeping
insertion order), append otherwise. -/
def objInsert (r : Row) (k : String) (v : Val) : Row :=
  if rowHasKey r k then r.map (fun p => if p.1 = k then (k, v) else p)
  else r ++ [(k, v)]

/-- Object-literal spread `\x7b ...base, ...extra \x7d` restricted to what
`setSession` does: start from `base` and assign every entry of `extra` in
order. -/
def objSpread (base extra : Row) : Row :=
  extra.foldl (fun acc p => objInsert acc p.1 p.2) base

/-- The session table's reserved column names. -/
def isReserved (k : String) : Bool :=
  decide (k = "id") || decide (k = "userId") || decide (k = "expiresAt")

/-- SQL equality predicate `eq(a, b)` on projected values (NULL never equal). -/
def sqlEq : Option Val → Option Val → Bool
  | some a, some b => decide (a = b)
  | _, _ => false

/-- SQL predicate `lte(expiresAt, now)` on a projected value. -/
def sqlLe (a : Option Val) (now : Nat) : Bool :=
  match a with
  | some (Val.time t) => decide (t ≤ now)
  | _ => false

/-- The domain session object of the lucia `Adapter` contract. -/
structure DatabaseSession where
  id : String
  userId : String
  expiresAt : Nat
  attributes : Row
deriving DecidableEq

/-- The domain user object of the lucia `Adapter` contract. -/
structure DatabaseUser where
  id : String
  attributes : Row
deriving DecidableEq

/-- Translation of `transformIntoDatabaseSession`: destructure
`\x7b id, userId, expiresAt, ...attributes \x7d` from the raw row.  The TS
row type guarantees the three reserved columns; a row without them (or with
wrongly-typed ones) has no counterpart, hence `Option`. -/
def transformIntoDatabaseSession (raw : Row) : Option DatabaseSession :=
  match rowLookup raw "id", rowLookup raw "userId", rowLookup raw "expiresAt" with
  | some (Val.str i), some (Val.str u), some (Val.time t) =>
      some { id := i, userId := u, expiresAt := t,
             attributes := raw.filter (fun p => !(isReserved p.1)) }
  | _, _, _ => none

/-- Translation of `transformIntoDatabaseUser`: destructure
`\x7b id, ...attributes \x7d` from the raw row. -/
def transformIntoDatabaseUser (raw : Row) : Option DatabaseUser :=
  match rowLookup raw "id" with
  | some (Val.str i) =>
      some { id := i, attributes := raw.filter (fun p => !(decide (p.1 = "id"))) }
  | _ => none

/-- The database state an adapter addresses: the session and user tables. -/
structure DB where
  sessions : List Row
  users : List Row
deriving DecidableEq

/-- The join issued by `getSessionAndUser`: `FROM sessionTable INNER JOIN
userTable ON sessionTable.userId = userTable.id WHERE sessionTable.id =
sessionId`, producing (session row, user row) pairs. -/
def joinRows (db : DB) (sessionId : String) : List (Row × Row) :=
  (db.sessions.flatMap (fun s =>
      (db.users.filter (fun u => sqlEq (rowLookup s "userId") (rowLookup u "id"))).map
        (fun u => (s, u)))).filter
    (fun p => sqlEq (rowLookup p.1 "id") (some (Val.str sessionId)))

/-- Translation of `getSessionAndUser`: run the join; on any result count
other than one return `(null, null)`, otherwise transform the single row
pair. -/
def getSessionAndUser (db : DB) (sessionId : String) :
    Option DatabaseSession × Option DatabaseUser :=
  match joinRows db sessionId with
  | [p] => (transformIntoDatabaseSession p.1, transformIntoDatabaseUser p.2)
  | _ => (none, none)

/-- Translation of `getUserSessions`: select the session rows with the given
`userId` and map each through `transformIntoDatabaseSession`. -/
def getUserSessions (db : DB) (userId : String) : List (Option DatabaseSession) :=
  (db.sessions.filter (fun r => sqlEq (rowLookup r "userId") (some (Val.str userId)))).map
    transformIntoDatabaseSession

/-- The row `setSession` inserts: object literal `\x7b id, userId, expiresAt,
...session.attributes \x7d` (spread last, so attribute keys overwrite). -/
def setSessionRow (session : DatabaseSession) : Row :=
  objSpread
    [("id", Val.str session.id), ("userId", Val.str session.userId),
     ("expiresAt", Val.time session.expiresAt)]
    session.attributes

/-- Translation of `setSession`: insert the built row into the session
table. -/
def setSession (db : DB) (session : DatabaseSession) : DB :=
  { db with sessions := db.sessions ++ [setSessionRow session] }

/-- Translation of `updateSessionExpiration`: `UPDATE ... SET expiresAt WHERE
id = sessionId`. -/
def updateSessionExpiration (db : DB) (sessionId : String) (expiresAt : Nat) : DB :=
  { db with sessions := db.sessions.map (fun r =>
      if sqlEq (rowLookup r "id") (some (Val.str sessionId)) then
        objInsert r "expiresAt" (Val.time expiresAt)
      else r) }

/-- Translation of `deleteSession`: `DELETE WHERE id = sessionId`. -/
def deleteSession (db : DB) (sessionId : String) : DB :=
  { db with sessions := db.sessions.filter (fun r =>
      !(sqlEq (rowLookup r "id") (some (Val.str sessionId)))) }

/-- Translation of `deleteUserSessions`: `DELETE WHERE userId = userId`. -/
def deleteUserSessions (db : DB) (userId : String) : DB :=
  { db with sessions := db.sessions.filter (fun r =>
      !(sqlEq (rowLookup r "userId") (some (Val.str userId)))) }

/-- Translation of `deleteExpiredSessions`: `DELETE WHERE expiresAt <= now`. -/
def deleteExpiredSessions (db : DB) (now : Nat) : DB :=
  { db with sessions := db.sessions.filter (fun r =>
      !(sqlLe (rowLookup r "expiresAt") now)) }

/-- A session row is well formed when the three reserved columns exist with
their declared types (guaranteed by the table schema). -/
def wfSessionRow (r : Row) : Bool :=
  (match rowLookup r "id" with | some (Val.str _) => true | _ => false) &&
  (match rowLookup r "userId" with | some (Val.str _) => true | _ => false) &&
  (match rowLookup r "expiresAt" with | some (Val.time _) => true | _ => false)

/-- A user row is well formed when its `id` column exists as a string. -/
def wfUserRow (r : Row) : Bool :=
  match rowLookup r "id" with | some (Val.str _) => true | _ => false

/-- A database is well formed when every row satisfies its table schema. -/
def WFDB (db : DB) : Prop :=
  (∀ r ∈ db.sessions, wfSessionRow r = true) ∧ (∀ r ∈ db.users, wfUserRow r = true)

instance (db : DB) : Decidable (WFDB db) := by
  unfold WFDB; infer_instance

/-! ## Schema redirection

The source's `dynamicSchema` assigns `table[Table.Symbol.Schema] = schema` on
the table object it is given and returns that same object.  A drizzle table is
modelled as a record of its name and its current schema pointer; the adapter's
fields `sessionTable` / `userTable` alias the objects `dynamicSchema` writes
to, so `getSessionTable` / `getUserTable` are modelled in state-passing style:
they return both the table reference the query will use and the adapter state
as it stands after the call. -/

/-- A drizzle table object: its name and its current schema pointer. -/
structure TableRef where
  name : String
  schema : String
deriving DecidableEq

/-- The private fields of `DrizzlePostgreSQLAdapter` (the `db` handle carries
no adapter-visible state and is omitted). -/
structure AdapterState where
  sessionTable : TableRef
  userTable : TableRef
  defaultSchema : String
deriving DecidableEq

/-- Translation of `dynamicSchema`: overwrite the table's schema pointer and
hand the table back.  In the source this is an in-place mutation of the given
object; the aliasing with the adapter's stored field is made explicit in
`getSessionTable` and `getUserTable` below. -/
def dynamicSchema (table : TableRef) (schema : String) : TableRef :=
  { table with schema := schema }

/-- Translation of `getSessionTable`: with a schema argument it runs
`dynamicSchema` on `this.sessionTable` — the returned reference and the stored
field are the same mutated object — and without one it returns the stored
field as is. -/
def getSessionTable (st : AdapterState) : Option String → TableRef × AdapterState
  | some schema =>
      (dynamicSchema st.sessionTable schema,
       { st with sessionTable := dynamicSchema st.sessionTable schema })
  | none => (st.sessionTable, st)

/-- Translation of `getUserTable`, mutating `this.userTable` the same way. -/
def getUserTable (st : AdapterState) : Option String → TableRef × AdapterState
  | some schema =>
      (dynamicSchema st.userTable schema,
       { st with userTable := dynamicSchema st.userTable schema })
  | none => (st.userTable, st)

/-- A concrete adapter as built by the constructor: both tables live in
schema "public", and "public" is also passed as `defaultSchema`. -/
def adapter0 : AdapterState :=
  { sessionTable := { name := "session", schema := "public" },
    userTable := { name := "user", schema := "public" },
    defaultSchema := "public" }

/-! ## Helper lemmas on rows and objects -/

theorem rowLookup_append (a b : Row) (k : String) :
    rowLookup (a ++ b) k =
      match rowLookup a k with
      | some v => some v
      | none => rowLookup b k := by
  induction a with
  | nil => simp [rowLookup]
  | cons p rest ih =>
      by_cases h : p.1 = k
      · simp [rowLookup, h]
      · simp [rowLookup, h, ih]

theorem rowHasKey_false_lookup (r : Row) (k : String) (h : rowHasKey r k = false) :
    rowLookup r k = none := by
  induction r with
  | nil => rfl
  | cons p rest ih =>
      simp only [rowHasKey, List.any_cons, Bool.or_eq_false_iff,
        decide_eq_false_iff_not] at h
      rw [rowLookup, if_neg h.1]
      exact ih h.2

theorem rowLookup_overwrite (r : Row) (k : String) (v : Val) (k2 : String) :
    rowLookup (r.map (fun p => if p.1 = k then (k, v) else p)) k2 =
      if k2 = k then (if rowHasKey r k then some v else none)
      else rowLookup r k2 := by
  induction r with
  | nil =>
      cases h2 : decide (k2 = k) <;>
        simp_all [rowLookup, rowHasKey]
  | cons p rest ih =>
      by_cases hp : p.1 = k
      · rw [List.map_cons, if_pos hp]
        by_cases h2 : k2 = k
        · subst h2
          rw [rowLookup, if_pos rfl]
          have : rowHasKey (p :: rest) k2 = true := by
            simp [rowHasKey, List.any_cons, hp]
          simp [this]
        · rw [rowLookup, if_neg (fun hc : k = k2 => h2 hc.symm), ih, if_neg h2,
            rowLookup, if_neg (fun hc : p.1 = k2 => h2 (hp ▸ hc).symm), if_neg h2]
      · rw [List.map_cons, if_neg hp]
        by_cases h2 : k2 = k
        · subst h2
          rw [rowLookup, if_neg (fun hc : p.1 = k2 => hp hc), ih, if_pos rfl]
          have : rowHasKey (p :: rest) k2 = rowHasKey rest k2 := by
            simp [rowHasKey, List.any_cons, hp]
          rw [this, if_pos rfl]
        · by_cases hp2 : p.1 = k2
          · rw [rowLookup, if_pos hp2, rowLookup, if_pos hp2, if_neg h2]
          · rw [rowLookup, if_neg hp2, ih, if_neg h2, rowLookup, if_neg hp2,
              if_neg h2]

theorem rowLookup_objInsert_self (r : Row) (k : String) (v : Val) :
    rowLookup (objInsert r k v) k = some v := by
  unfold objInsert
  by_cases h : rowHasKey r k = true
  · rw [if_pos h, rowLookup_overwrite, if_pos rfl, if_pos h]
  · simp only [Bool.not_eq_true] at h
    rw [if_neg (by simp [h]), rowLookup_append, rowHasKey_false_lookup r k h]
    simp [rowLookup]

theorem rowLookup_objInsert_ne (r : Row) (k : String) (v : Val) (k2 : String)
    (h : k2 ≠ k) : rowLookup (objInsert r k v) k2 = rowLookup r k2 := by
  unfold objInsert
  by_cases hk : rowHasKey r k = true
  · rw [if_pos hk, rowLookup_overwrite, if_neg h]
  · simp only [Bool.not_eq_true] at hk
    rw [if_neg (by simp [hk]), rowLookup_append]
    cases hlk : rowLookup r k2 with
    | some v2 => rfl
    | none => simp [rowLookup, Ne.symm h]

theorem objSpread_no_clash (base extra : Row)
    (hdisj : ∀ p ∈ extra, rowHasKey base p.1 = false)
    (hnodup : (extra.map Prod.fst).Nodup) :
    objSpread base extra = base ++ extra := by
  induction extra generalizing base with
  | nil => simp [objSpread]
  | cons p rest ih =>
      have hbase : rowHasKey base p.1 = false := hdisj p (by simp)
      have step : objInsert base p.1 p.2 = base ++ [p] := by
        simp [objInsert, hbase]
      rw [List.map_cons, List.nodup_cons] at hnodup
      obtain ⟨hnotin, hnodup2⟩ := hnodup
      have hdisj2 : ∀ q ∈ rest, rowHasKey (base ++ [p]) q.1 = false := by
        intro q hq
        have h1 : rowHasKey base q.1 = false := hdisj q (by simp [hq])
        have h2 : p.1 ≠ q.1 := by
          intro hcontra
          have hmem := List.mem_map_of_mem Prod.fst hq
          rw [← hcontra] at hmem
          exact hnotin hmem
        simp only [rowHasKey, List.any_append, Bool.or_eq_false_iff]
        refine ⟨h1, ?_⟩
        simp [List.any_cons, h2]
      calc objSpread base (p :: rest)
          = objSpread (objInsert base p.1 p.2) rest := by simp [objSpread, List.foldl_cons]
        _ = objSpread (base ++ [p]) rest := by rw [step]
        _ = (base ++ [p]) ++ rest := ih (base ++ [p]) hdisj2 hnodup2
        _ = base ++ p :: rest := by simp

theorem sqlEq_some_right (x : Option Val) (v : Val) :
    sqlEq x (some v) = true ↔ x = some v := by
  cases x with
  | none => simp [sqlEq]
  | some a => simp [sqlEq]

theorem rowLookup_filter_keys (r : Row) (q : String → Bool) (k : String) :
    rowLookup (r.filter (fun p => q p.1)) k =
      if q k = true then rowLookup r k else none := by
  induction r with
  | nil => cases h : q k <;> simp_all [rowLookup]
  | cons p rest ih =>
      by_cases hp : p.1 = k
      · subst hp
        cases hq : q p.1 with
        | true => simp [rowLookup, hq, List.filter_cons, ih]
        | false =>
            rw [List.filter_cons]
            simp [hq, ih]
      · cases hq : q p.1 with
        | true =>
            simp only [List.filter_cons, hq, if_true]
            rw [rowLookup, if_neg hp, ih, rowLookup, if_neg hp]
        | false =>
            simp only [List.filter_cons, hq, Bool.false_eq_true, if_false, ih]
            rw [rowLookup, if_neg hp]

theorem wf_session_lookup (r : Row) (h : wfSessionRow r = true) :
    ∃ i u t, rowLookup r "id" = some (Val.str i) ∧
      rowLookup r "userId" = some (Val.str u) ∧
      rowLookup r "expiresAt" = some (Val.time t) := by
  unfold wfSessionRow at h
  simp only [Bool.and_eq_true] at h
  obtain ⟨⟨h1, h2⟩, h3⟩ := h
  have g1 : ∃ i, rowLookup r "id" = some (Val.str i) := by
    cases hx : rowLookup r "id" with
    | none => rw [hx] at h1; exact (Bool.false_ne_true h1).elim
    | some v =>
        cases v with
        | str s => exact ⟨s, rfl⟩
        | time t => rw [hx] at h1; exact (Bool.false_ne_true h1).elim
  have g2 : ∃ u, rowLookup r "userId" = some (Val.str u) := by
    cases hx : rowLookup r "userId" with
    | none => rw [hx] at h2; exact (Bool.false_ne_true h2).elim
    | some v =>
        cases v with
        | str s => exact ⟨s, rfl⟩
        | time t => rw [hx] at h2; exact (Bool.false_ne_true h2).elim
  have g3 : ∃ t, rowLookup r "expiresAt" = some (Val.time t) := by
    cases hx : rowLookup r "expiresAt" with
    | none => rw [hx] at h3; exact (Bool.false_ne_true h3).elim
    | some v =>
        cases v with
        | str s => rw [hx] at h3; exact (Bool.false_ne_true h3).elim
        | time t => exact ⟨t, rfl⟩
  obtain ⟨i, hi⟩ := g1; obtain ⟨u, hu⟩ := g2; obtain ⟨t, ht⟩ := g3
  exact ⟨i, u, t, hi, hu, ht⟩

theorem transform_session_of_wf (r : Row) (h : wfSessionRow r = true) :
    ∃ i u t, rowLookup r "id" = some (Val.str i) ∧
      rowLookup r "userId" = some (Val.str u) ∧
      rowLookup r "expiresAt" = some (Val.time t) ∧
      transformIntoDatabaseSession r =
        some { id := i, userId := u, expiresAt := t,
               attributes := r.filter (fun p => !(isReserved p.1)) } := by
  obtain ⟨i, u, t, hi, hu, ht⟩ := wf_session_lookup r h
  refine ⟨i, u, t, hi, hu, ht, ?_⟩
  unfold transformIntoDatabaseSession
  rw [hi, hu, ht]

theorem transform_user_of_wf (r : Row) (h : wfUserRow r = true) :
    ∃ i, rowLookup r "id" = some (Val.str i) ∧
      transformIntoDatabaseUser r =
        some { id := i, attributes := r.filter (fun p => !(decide (p.1 = "id"))) } := by
  unfold wfUserRow at h
  have g1 : ∃ i, rowLookup r "id" = some (Val.str i) := by
    cases hx : rowLookup r "id" with
    | none => rw [hx] at h; exact (Bool.false_ne_true h).elim
    | some v =>
        cases v with
        | str s => exact ⟨s, rfl⟩
        | time t => rw [hx] at h; exact (Bool.false_ne_true h).elim
  obtain ⟨i, hi⟩ := g1
  refine ⟨i, hi, ?_⟩
  unfold transformIntoDatabaseUser
  rw [hi]

theorem filter_congr_mem {α : Type} (l : List α) (p q : α → Bool)
    (h : ∀ a ∈ l, p a = q a) : l.filter p = l.filter q := by
  induction l with
  | nil => rfl
  | cons a rest ih =>
      rw [List.filter_cons, List.filter_cons, h a (by simp),
        ih (fun b hb => h b (by simp [hb]))]

theorem filter_flatMap_eq {α β : Type} (l : List α) (F : α → List β) (p : β → Bool) :
    (l.flatMap F).filter p = l.flatMap (fun a => (F a).filter p) := by
  induction l with
  | nil => rfl
  | cons a rest ih => simp [List.flatMap_cons, List.filter_append, ih]

theorem filter_map_pair {γ : Type} (users : List Row) (s : γ)
    (f : Row → Bool) (g : γ × Row → Bool) :
    ((users.filter f).map (fun u => (s, u))).filter g =
      (users.map (fun u => (s, u))).filter (fun p => f p.2 && g p) := by
  induction users with
  | nil => rfl
  | cons u rest ih =>
      cases hf : f u with
      | true =>
          cases hg : g (s, u) with
          | true => simp [List.filter_cons, hf, hg, ih]
          | false => simp [List.filter_cons, hf, hg, ih]
      | false => simp [List.filter_cons, hf, ih]

/-- The join of `getSessionAndUser` phrased the way the spec describes it:
all (session row, user row) pairs from the cross product satisfying
`session.userId = user.id` and `session.id = sessionId`. -/
def joinRowsSpec (db : DB) (sessionId : String) : List (Row × Row) :=
  (db.sessions.flatMap (fun s => db.users.map (fun u => (s, u)))).filter
    (fun p => sqlEq (rowLookup p.1 "userId") (rowLookup p.2 "id") &&
      sqlEq (rowLookup p.1 "id") (some (Val.str sessionId)))

theorem joinRows_eq_spec (db : DB) (sessionId : String) :
    joinRows db sessionId = joinRowsSpec db sessionId := by
  unfold joinRows joinRowsSpec
  rw [filter_flatMap_eq, filter_flatMap_eq]
  congr 1
  funext s
  rw [filter_map_pair]
  refine filter_congr_mem _ _ _ ?_
  intro p hp
  rw [List.mem_map] at hp
  obtain ⟨u, _, rfl⟩ := hp
  rfl

theorem joinRows_nil_of_no_match (db : DB) (sessionId : String)
    (h : ∀ s ∈ db.sessions, sqlEq (rowLookup s "id") (some (Val.str sessionId)) = false) :
    joinRows db sessionId = [] := by
  unfold joinRows
  rw [List.filter_eq_nil_iff]
  intro p hp
  rw [List.mem_flatMap] at hp
  obtain ⟨s, hs, hmem⟩ := hp
  rw [List.mem_map] at hmem
  obtain ⟨u, _, hpu⟩ := hmem
  subst hpu
  simp [h s hs]

theorem map_congr_mem {α β : Type} (l : List α) (f g : α → β)
    (h : ∀ a ∈ l, f a = g a) : l.map f = l.map g := by
  induction l with
  | nil => rfl
  | cons a rest ih =>
      rw [List.map_cons, List.map_cons, h a (by simp),
        ih (fun b hb => h b (by simp [hb]))]

theorem rowLookup_objSpread_not_in_extra (base extra : Row) (k : String)
    (h : rowHasKey extra k = false) :
    rowLookup (objSpread base extra) k = rowLookup base k := by
  induction extra generalizing base with
  | nil => rfl
  | cons p rest ih =>
      simp only [rowHasKey, List.any_cons, Bool.or_eq_false_iff,
        decide_eq_false_iff_not] at h
      have step : objSpread base (p :: rest) = objSpread (objInsert base p.1 p.2) rest := by
        simp [objSpread, List.foldl_cons]
      rw [step, ih (objInsert base p.1 p.2) (by simp [rowHasKey, h.2]),
        rowLookup_objInsert_ne base p.1 p.2 k (fun hc => h.1 hc.symm)]

theorem rowLookup_objSpread_in_extra (base extra : Row) (k : String) (v : Val)
    (hnodup : (extra.map Prod.fst).Nodup) (h : rowLookup extra k = some v) :
    rowLookup (objSpread base extra) k = some v := by
  induction extra generalizing base with
  | nil => simp [rowLookup] at h
  | cons p rest ih =>
      rw [List.map_cons, List.nodup_cons] at hnodup
      obtain ⟨hnotin, hnodup2⟩ := hnodup
      have step : objSpread base (p :: rest) = objSpread (objInsert base p.1 p.2) rest := by
        simp [objSpread, List.foldl_cons]
      by_cases hp : p.1 = k
      · have hv : v = p.2 := by
          rw [rowLookup, if_pos hp] at h
          exact (Option.some.injEq _ _ ▸ h.symm :)
        have hrest : rowHasKey rest k = false := by
          cases hrk : rowHasKey rest k with
          | false => rfl
          | true =>
              exfalso
              unfold rowHasKey at hrk
              rw [List.any_eq_true] at hrk
              obtain ⟨q, hq, hqk⟩ := hrk
              rw [decide_eq_true_eq] at hqk
              apply hnotin
              have := List.mem_map_of_mem Prod.fst hq
              rw [hqk, ← hp] at this
              exact this
        rw [step, rowLookup_objSpread_not_in_extra _ _ _ hrest, hp,
          rowLookup_objInsert_self, hv]
      · rw [rowLookup, if_neg hp] at h
        rw [step]
        exact ih (objInsert base p.1 p.2) hnodup2 h

theorem rowHasKey_reserved_base (a b c : Val) (k : String) :
    rowHasKey [("id", a), ("userId", b), ("expiresAt", c)] k = isReserved k := by
  by_cases h1 : k = "id"
  · subst h1; simp [rowHasKey, isReserved]
  · by_cases h2 : k = "userId"
    · subst h2; simp [rowHasKey, isReserved]
    · by_cases h3 : k = "expiresAt"
      · subst h3; simp [rowHasKey, isReserved]
      · have n1 : ¬("id" = k) := fun h => h1 h.symm
        have n2 : ¬("userId" = k) := fun h => h2 h.symm
        have n3 : ¬("expiresAt" = k) := fun h => h3 h.symm
        simp [rowHasKey, isReserved, h1, h2, h3, n1, n2, n3]

theorem length_one_mem_eq {α : Type} (l : List α) (a : α)
    (h1 : l.length = 1) (h2 : a ∈ l) : l = [a] := by
  cases l with
  | nil => simp at h2
  | cons b t =>
      cases t with
      | nil =>
          rw [List.mem_singleton] at h2
          rw [h2]
      | cons c t2 => simp at h1

/-! ## Claims C1 and C2: schema redirection -/

/-- Claim C1 is false on the code: `dynamicSchema` mutates the base table
object in place instead of cloning it, so after a call with a schema argument
the adapter's stored session table is changed. Concretely, redirecting the
adapter built over schema "public" to schema "tenant" leaves the stored
session table pointing at "tenant". -/
theorem claim1_counterexample :
    (getSessionTable adapter0 (some "tenant")).2.sessionTable ≠ adapter0.sessionTable ∧
    (getUserTable adapter0 (some "tenant")).2.userTable ≠ adapter0.userTable := by
  decide

/-- Claim C1 (amended): for an operation called with a schema argument, the
table reference used for the call is the base table with its schema pointer
overwritten — but it is the very same (mutated) stored table object, not a
clone: after the call the adapter's stored table holds the supplied schema.
Only the schema pointer changes (the name is kept), and resolving the session
table does not touch the user table or `defaultSchema` (and vice versa). -/
theorem claim1_schema_redirection_mutates (st : AdapterState) (s : String) :
    (getSessionTable st (some s)).1 = (getSessionTable st (some s)).2.sessionTable ∧
    (getSessionTable st (some s)).1.schema = s ∧
    (getSessionTable st (some s)).1.name = st.sessionTable.name ∧
    (getSessionTable st (some s)).2.userTable = st.userTable ∧
    (getSessionTable st (some s)).2.defaultSchema = st.defaultSchema ∧
    (getUserTable st (some s)).1 = (getUserTable st (some s)).2.userTable ∧
    (getUserTable st (some s)).1.schema = s ∧
    (getUserTable st (some s)).1.name = st.userTable.name ∧
    (getUserTable st (some s)).2.sessionTable = st.sessionTable := by
  exact ⟨rfl, rfl, rfl, rfl, rfl, rfl, rfl, rfl, rfl⟩

/-- Claim C2 is false on the code: a call without a schema argument does not
target the constructor's `defaultSchema`; it uses the stored table object as
is, and an earlier call with a schema argument has permanently redirected that
object. Concretely, after one call with schema "tenant" on the adapter whose
`defaultSchema` is "public", a schema-less call targets "tenant". -/
theorem claim2_counterexample :
    (getSessionTable (getSessionTable adapter0 (some "tenant")).2 none).1.schema ≠
      adapter0.defaultSchema := by
  decide

/-- Claim C2 (amended): an operation called without a schema argument uses the
stored table object's current schema pointer — the schema of the most recent
schema-bearing call when there was one, and the table's original schema
otherwise; the `defaultSchema` value stored by the constructor is never
consulted when resolving a table. -/
theorem claim2_no_schema_uses_stored_table (st : AdapterState) (o : Option String)
    (d s : String) :
    (getSessionTable st none).1 = st.sessionTable ∧
    (getSessionTable st none).2 = st ∧
    (getSessionTable (getSessionTable st (some s)).2 none).1.schema = s ∧
    (getUserTable (getUserTable st (some s)).2 none).1.schema = s ∧
    (getSessionTable { st with defaultSchema := d } o).1 = (getSessionTable st o).1 ∧
    (getUserTable { st with defaultSchema := d } o).1 = (getUserTable st o).1 := by
  cases o with
  | none => exact ⟨rfl, rfl, rfl, rfl, rfl, rfl⟩
  | some s2 => exact ⟨rfl, rfl, rfl, rfl, rfl, rfl⟩

/-! ## Claim C9: transforms exclude reserved keys -/

/-- Claim C9: every session produced by `transformIntoDatabaseSession` has an
attributes mapping without the reserved keys `id`, `userId`, `expiresAt`, and
every user produced by `transformIntoDatabaseUser` has one without `id`; the
transforms remove exactly the reserved keys, leaving every other column of the
row visible in the attributes unchanged. -/
theorem claim9_transforms_exclude_reserved :
    (∀ raw d, transformIntoDatabaseSession raw = some d →
      (∀ p ∈ d.attributes, isReserved p.1 = false) ∧
      (∀ k, isReserved k = true → rowLookup d.attributes k = none) ∧
      (∀ k, isReserved k = false → rowLookup d.attributes k = rowLookup raw k)) ∧
    (∀ raw w, transformIntoDatabaseUser raw = some w →
      (∀ p ∈ w.attributes, p.1 ≠ "id") ∧
      rowLookup w.attributes "id" = none ∧
      (∀ k, k ≠ "id" → rowLookup w.attributes k = rowLookup raw k)) := by
  constructor
  · intro raw d hd
    unfold transformIntoDatabaseSession at hd
    split at hd
    case _ i u t h1 h2 h3 =>
      rw [Option.some.injEq] at hd
      subst hd
      refine ⟨?_, ?_, ?_⟩
      · intro p hp
        rw [List.mem_filter] at hp
        simpa using hp.2
      · intro k hk
        rw [rowLookup_filter_keys raw (fun s => !(isReserved s)) k]
        simp [hk]
      · intro k hk
        rw [rowLookup_filter_keys raw (fun s => !(isReserved s)) k]
        simp [hk]
    case _ => exact absurd hd (by simp)
  · intro raw w hw
    unfold transformIntoDatabaseUser at hw
    split at hw
    case _ i h1 =>
      rw [Option.some.injEq] at hw
      subst hw
      refine ⟨?_, ?_, ?_⟩
      · intro p hp
        rw [List.mem_filter] at hp
        simpa using hp.2
      · rw [rowLookup_filter_keys raw (fun s => !(decide (s = "id"))) "id"]
        simp
      · intro k hk
        rw [rowLookup_filter_keys raw (fun s => !(decide (s = "id"))) k]
        simp [hk]
    case _ => exact absurd hw (by simp)

/-- Witness for claim C9 at a concrete row with one extra column. -/
theorem claim9_witness :
    rowLookup (DatabaseSession.mk "s1" "u1" 5 [("note", Val.str "x")]).attributes
        "note" =
      rowLookup [("id", Val.str "s1"), ("userId", Val.str "u1"),
        ("expiresAt", Val.time 5), ("note", Val.str "x")] "note" :=
  (claim9_transforms_exclude_reserved.1
    [("id", Val.str "s1"), ("userId", Val.str "u1"),
      ("expiresAt", Val.time 5), ("note", Val.str "x")]
    (DatabaseSession.mk "s1" "u1" 5 [("note", Val.str "x")])
    (by decide)).2.2 "note" (by decide)

/-! ## Claim C10: reserved keys in attributes override the named fields -/

/-- Claim C10: `setSession` writes the reserved fields first and then spreads
the attributes over them, so an attribute entry under a reserved key silently
overrides the corresponding named field of the inserted row; when the
attributes exclude the reserved names, the inserted row is exactly the three
reserved columns followed by the attribute entries. -/
theorem claim10_setSession_spread_override (S : DatabaseSession)
    (hnodup : (S.attributes.map Prod.fst).Nodup) :
    (∀ k v, isReserved k = true → rowLookup S.attributes k = some v →
      rowLookup (setSessionRow S) k = some v) ∧
    ((∀ p ∈ S.attributes, isReserved p.1 = false) →
      setSessionRow S =
        [("id", Val.str S.id), ("userId", Val.str S.userId),
          ("expiresAt", Val.time S.expiresAt)] ++ S.attributes) := by
  constructor
  · intro k v _ hlk
    exact rowLookup_objSpread_in_extra _ _ _ _ hnodup hlk
  · intro hattr
    unfold setSessionRow
    exact objSpread_no_clash _ _
      (fun p hp => by rw [rowHasKey_reserved_base]; exact hattr p hp) hnodup

/-- Witness for claim C10: an `id` attribute overrides the session's own id in
the inserted row. -/
theorem claim10_witness :
    rowLookup (setSessionRow (DatabaseSession.mk "s1" "u1" 5
        [("id", Val.str "evil")])) "id" = some (Val.str "evil") :=
  (claim10_setSession_spread_override
    (DatabaseSession.mk "s1" "u1" 5 [("id", Val.str "evil")]) (by decide)).1
    "id" (Val.str "evil") (by decide) (by decide)

theorem zip_self_map {α β : Type} (l : List α) (f : α → β) :
    l.zip (l.map f) = l.map (fun a => (a, f a)) := by
  induction l with
  | nil => rfl
  | cons a rest ih => simp [List.zip_cons_cons, ih]

theorem countP_le_one_same_val {α β : Type} (l : List α) (p : α → Bool)
    (f : α → β) (b : β) (hp : ∀ a, p a = true → f a = b)
    (hnd : (l.map f).Nodup) : l.countP p ≤ 1 := by
  induction l with
  | nil => simp
  | cons a rest ih =>
      rw [List.map_cons, List.nodup_cons] at hnd
      obtain ⟨hnotin, hnd2⟩ := hnd
      rw [List.countP_cons]
      cases hpa : p a with
      | false => simpa using ih hnd2
      | true =>
          have hz : rest.countP p = 0 := by
            rw [List.countP_eq_zero]
            intro x hx hpx
            apply hnotin
            have h1 : f x = b := hp x hpx
            have h2 : f a = b := hp a hpa
            rw [h2, ← h1]
            exact List.mem_map_of_mem f hx
          simp [hz]

theorem length_le_filter_not_add {α : Type} (l : List α) (p : α → Bool) :
    l.length ≤ (l.filter (fun a => !(p a))).length + l.countP p := by
  induction l with
  | nil => simp
  | cons a rest ih =>
      by_cases hpa : p a = true
      · rw [List.filter_cons, List.countP_cons, if_pos hpa, if_neg (by simp [hpa])]
        simp only [List.length_cons]
        omega
      · rw [List.filter_cons, List.countP_cons, if_neg hpa, if_pos (by simp [hpa])]
        simp only [List.length_cons]
        omega

/-! ## Claim C5: updateSessionExpiration frame conditions -/

/-- Claim C5: `updateSessionExpiration sid t` keeps the user table, creates and
removes no session row, is the identity when no session row carries id `sid`,
and, position by position: a row whose id is `sid` gets `expiresAt := t` with
every other column unchanged, while any other row is untouched. -/
theorem claim5_updateSessionExpiration_frame (db : DB) (sid : String) (t : Nat)
    (db2 : DB) (hdb2 : db2 = updateSessionExpiration db sid t) :
    db2.users = db.users ∧
    db2.sessions.length = db.sessions.length ∧
    ((∀ r ∈ db.sessions, rowLookup r "id" ≠ some (Val.str sid)) → db2 = db) ∧
    (∀ p ∈ db.sessions.zip db2.sessions,
      (rowLookup p.1 "id" = some (Val.str sid) →
        rowLookup p.2 "expiresAt" = some (Val.time t) ∧
        ∀ k, k ≠ "expiresAt" → rowLookup p.2 k = rowLookup p.1 k) ∧
      (rowLookup p.1 "id" ≠ some (Val.str sid) → p.2 = p.1)) := by
  subst hdb2
  refine ⟨rfl, List.length_map _ _, ?_, ?_⟩
  · intro hno
    show updateSessionExpiration db sid t = db
    unfold updateSessionExpiration
    have hmap : db.sessions.map (fun r =>
        if sqlEq (rowLookup r "id") (some (Val.str sid)) then
          objInsert r "expiresAt" (Val.time t)
        else r) = db.sessions := by
      rw [map_congr_mem _ _ (fun r => r)
        (fun r hr => if_neg (fun hcond =>
          hno r hr ((sqlEq_some_right _ _).mp hcond)))]
      exact List.map_id' db.sessions
    rw [hmap]
  · intro p hp
    have hzip : db.sessions.zip ((updateSessionExpiration db sid t).sessions) =
        db.sessions.map (fun r => (r,
          if sqlEq (rowLookup r "id") (some (Val.str sid)) then
            objInsert r "expiresAt" (Val.time t)
          else r)) := by
      show db.sessions.zip (db.sessions.map _) = _
      rw [zip_self_map]
    rw [hzip, List.mem_map] at hp
    obtain ⟨r, hr, hpr⟩ := hp
    subst hpr
    constructor
    · intro hid
      have hcond : sqlEq (rowLookup r "id") (some (Val.str sid)) = true :=
        (sqlEq_some_right _ _).mpr hid
      refine ⟨?_, ?_⟩
      · show rowLookup (if _ then _ else _) _ = _
        rw [if_pos hcond, rowLookup_objInsert_self]
      · intro k hk
        show rowLookup (if _ then _ else _) _ = _
        rw [if_pos hcond, rowLookup_objInsert_ne _ _ _ _ hk]
    · intro hid
      have hcond : ¬(sqlEq (rowLookup r "id") (some (Val.str sid)) = true) :=
        fun hc => hid ((sqlEq_some_right _ _).mp hc)
      show (if _ then _ else _) = _
      rw [if_neg hcond]

/-- Witness for claim C5 at a one-row database: the matching row's
`expiresAt` is set to the new timestamp and its `userId` column is kept. -/
theorem claim5_witness :
    rowLookup [("id", Val.str "s1"), ("userId", Val.str "u1"),
        ("expiresAt", Val.time 9)] "expiresAt" = some (Val.time 9) ∧
    rowLookup [("id", Val.str "s1"), ("userId", Val.str "u1"),
        ("expiresAt", Val.time 9)] "userId" =
      rowLookup [("id", Val.str "s1"), ("userId", Val.str "u1"),
        ("expiresAt", Val.time 5)] "userId" :=
  ⟨((claim5_updateSessionExpiration_frame
      (DB.mk [[("id", Val.str "s1"), ("userId", Val.str "u1"),
        ("expiresAt", Val.time 5)]] []) "s1" 9 _ rfl).2.2.2
      ([("id", Val.str "s1"), ("userId", Val.str "u1"), ("expiresAt", Val.time 5)],
       [("id", Val.str "s1"), ("userId", Val.str "u1"), ("expiresAt", Val.time 9)])
      (by decide)).1 (by decide) |>.1,
   ((claim5_updateSessionExpiration_frame
      (DB.mk [[("id", Val.str "s1"), ("userId", Val.str "u1"),
        ("expiresAt", Val.time 5)]] []) "s1" 9 _ rfl).2.2.2
      ([("id", Val.str "s1"), ("userId", Val.str "u1"), ("expiresAt", Val.time 5)],
       [("id", Val.str "s1"), ("userId", Val.str "u1"), ("expiresAt", Val.time 9)])
      (by decide)).1 (by decide) |>.2 "userId" (by decide)⟩

/-! ## Claim C6: deleteExpiredSessions deletes exactly the expired rows -/

/-- Claim C6: `deleteExpiredSessions` run at time `now` leaves the user table
alone, removes rows only (the survivors form a sublist of the original
sessions, untouched and in order), and a row survives exactly when its
`expiresAt` is strictly after `now`. -/
theorem claim6_deleteExpiredSessions_exact (db : DB) (now : Nat)
    (hwf : ∀ r ∈ db.sessions, wfSessionRow r = true) :
    (deleteExpiredSessions db now).users = db.users ∧
    (deleteExpiredSessions db now).sessions.Sublist db.sessions ∧
    (∀ r, r ∈ (deleteExpiredSessions db now).sessions ↔
      (r ∈ db.sessions ∧
        ∃ e, rowLookup r "expiresAt" = some (Val.time e) ∧ now < e)) := by
  refine ⟨rfl, List.filter_sublist _, ?_⟩
  intro r
  constructor
  · intro hr
    rw [show (deleteExpiredSessions db now).sessions =
        db.sessions.filter (fun r => !(sqlLe (rowLookup r "expiresAt") now)) from rfl,
      List.mem_filter] at hr
    obtain ⟨hmem, hkeep⟩ := hr
    obtain ⟨_, _, e, _, _, he⟩ := wf_session_lookup r (hwf r hmem)
    refine ⟨hmem, e, he, ?_⟩
    rw [he] at hkeep
    unfold sqlLe at hkeep
    simp only [Bool.not_eq_true'] at hkeep
    rw [decide_eq_false_iff_not] at hkeep
    omega
  · intro ⟨hmem, e, he, hlt⟩
    rw [show (deleteExpiredSessions db now).sessions =
        db.sessions.filter (fun r => !(sqlLe (rowLookup r "expiresAt") now)) from rfl,
      List.mem_filter]
    refine ⟨hmem, ?_⟩
    rw [he]
    unfold sqlLe
    simp only [Bool.not_eq_true']
    rw [decide_eq_false_iff_not]
    omega

/-- Witness for claim C6: with rows expiring at 2 and 9 and the call at time
3, the row expiring at 9 survives. -/
theorem claim6_witness :
    [("id", Val.str "s2"), ("userId", Val.str "u1"), ("expiresAt", Val.time 9)] ∈
      (deleteExpiredSessions
        (DB.mk [[("id", Val.str "s1"), ("userId", Val.str "u1"),
            ("expiresAt", Val.time 2)],
          [("id", Val.str "s2"), ("userId", Val.str "u1"),
            ("expiresAt", Val.time 9)]] []) 3).sessions :=
  ((claim6_deleteExpiredSessions_exact
    (DB.mk [[("id", Val.str "s1"), ("userId", Val.str "u1"),
        ("expiresAt", Val.time 2)],
      [("id", Val.str "s2"), ("userId", Val.str "u1"),
        ("expiresAt", Val.time 9)]] []) 3 (by decide)).2.2
    [("id", Val.str "s2"), ("userId", Val.str "u1"),
      ("expiresAt", Val.time 9)]).mpr
    ⟨by decide, 9, by decide, by decide⟩

/-! ## Claim C7: getUserSessions returns exactly the owner's sessions -/

/-- Claim C7: on a well-formed database, every element `getUserSessions`
returns is a present session whose `userId` equals the argument; a session
value appears in the result exactly when some stored row with that `userId`
transforms to it (a membership characterization independent of order); and an
unknown `userId` yields the empty list rather than an error. -/
theorem claim7_getUserSessions_exact (db : DB) (uid : String)
    (hwf : ∀ r ∈ db.sessions, wfSessionRow r = true) :
    (∀ x ∈ getUserSessions db uid, ∃ d, x = some d ∧ d.userId = uid) ∧
    (∀ d : DatabaseSession, some d ∈ getUserSessions db uid ↔
      ∃ r ∈ db.sessions, rowLookup r "userId" = some (Val.str uid) ∧
        transformIntoDatabaseSession r = some d) ∧
    ((∀ r ∈ db.sessions, rowLookup r "userId" ≠ some (Val.str uid)) →
      getUserSessions db uid = []) := by
  refine ⟨?_, ?_, ?_⟩
  · intro x hx
    unfold getUserSessions at hx
    rw [List.mem_map] at hx
    obtain ⟨r, hr, hxr⟩ := hx
    rw [List.mem_filter] at hr
    obtain ⟨hmem, hpred⟩ := hr
    obtain ⟨i2, u2, t2, hi2, hu2, ht2, htr⟩ := transform_session_of_wf r (hwf r hmem)
    have huid : rowLookup r "userId" = some (Val.str uid) :=
      (sqlEq_some_right _ _).mp hpred
    rw [hu2] at huid
    rw [Option.some.injEq, Val.str.injEq] at huid
    refine ⟨DatabaseSession.mk i2 u2 t2 (r.filter (fun p => !(isReserved p.1))),
      ?_, huid⟩
    rw [← hxr, htr]
  · intro d
    constructor
    · intro hd
      unfold getUserSessions at hd
      rw [List.mem_map] at hd
      obtain ⟨r, hr, hrd⟩ := hd
      rw [List.mem_filter] at hr
      exact ⟨r, hr.1, (sqlEq_some_right _ _).mp hr.2, hrd⟩
    · intro ⟨r, hmem, huid, htr⟩
      unfold getUserSessions
      rw [List.mem_map]
      exact ⟨r, List.mem_filter.mpr ⟨hmem, (sqlEq_some_right _ _).mpr huid⟩, htr⟩
  · intro hno
    unfold getUserSessions
    rw [show db.sessions.filter
        (fun r => sqlEq (rowLookup r "userId") (some (Val.str uid))) = [] from ?_]
    · rfl
    · rw [List.filter_eq_nil_iff]
      intro r hr hc
      exact hno r hr ((sqlEq_some_right _ _).mp hc)

/-- Witness for claim C7: a `userId` owning no session row yields `[]`. -/
theorem claim7_witness :
    getUserSessions
      (DB.mk [[("id", Val.str "s1"), ("userId", Val.str "u1"),
        ("expiresAt", Val.time 5)]] []) "nobody" = [] :=
  (claim7_getUserSessions_exact
    (DB.mk [[("id", Val.str "s1"), ("userId", Val.str "u1"),
      ("expiresAt", Val.time 5)]] []) "nobody" (by decide)).2.2 (by decide)

/-! ## Claim C8: deleteSession then getSessionAndUser is always absent -/

/-- Claim C8: after `deleteSession sid`, looking the id up with
`getSessionAndUser` yields `(absent, absent)` for every database, whether or
not a row with that id existed (and no error is possible — the operations are
total); and under the id-uniqueness invariant the delete removes at most one
row. -/
theorem claim8_deleteSession_then_get (db : DB) (sid : String) :
    getSessionAndUser (deleteSession db sid) sid = (none, none) ∧
    ((db.sessions.map (fun r => rowLookup r "id")).Nodup →
      db.sessions.length ≤ (deleteSession db sid).sessions.length + 1) := by
  constructor
  · unfold getSessionAndUser
    rw [joinRows_nil_of_no_match]
    intro s hs
    rw [show (deleteSession db sid).sessions =
        db.sessions.filter (fun r =>
          !(sqlEq (rowLookup r "id") (some (Val.str sid)))) from rfl,
      List.mem_filter] at hs
    simpa using hs.2
  · intro hnd
    have hcount : db.sessions.countP
        (fun r => sqlEq (rowLookup r "id") (some (Val.str sid))) ≤ 1 :=
      countP_le_one_same_val _ _ (fun r => rowLookup r "id") (some (Val.str sid))
        (fun r hr => (sqlEq_some_right _ _).mp hr) hnd
    have hlen := length_le_filter_not_add db.sessions
      (fun r => sqlEq (rowLookup r "id") (some (Val.str sid)))
    calc db.sessions.length
        ≤ (db.sessions.filter (fun r =>
            !(sqlEq (rowLookup r "id") (some (Val.str sid))))).length +
          db.sessions.countP
            (fun r => sqlEq (rowLookup r "id") (some (Val.str sid))) := hlen
      _ ≤ (deleteSession db sid).sessions.length + 1 :=
          Nat.add_le_add (Nat.le_refl _) hcount

/-- Witness for claim C8: the delete removes at most one row of a concrete
two-row database with distinct ids. -/
theorem claim8_witness :
    (DB.mk [[("id", Val.str "s1"), ("userId", Val.str "u1"),
        ("expiresAt", Val.time 5)],
      [("id", Val.str "s2"), ("userId", Val.str "u1"),
        ("expiresAt", Val.time 7)]] []).sessions.length ≤
      (deleteSession (DB.mk [[("id", Val.str "s1"), ("userId", Val.str "u1"),
          ("expiresAt", Val.time 5)],
        [("id", Val.str "s2"), ("userId", Val.str "u1"),
          ("expiresAt", Val.time 7)]] []) "s1").sessions.length + 1 :=
  (claim8_deleteSession_then_get
    (DB.mk [[("id", Val.str "s1"), ("userId", Val.str "u1"),
        ("expiresAt", Val.time 5)],
      [("id", Val.str "s2"), ("userId", Val.str "u1"),
        ("expiresAt", Val.time 7)]] []) "s1").2 (by decide)

/-! ## Claim C3: getSessionAndUser and the one-row join -/

/-- Claim C3: on a well-formed database, `getSessionAndUser` returns both
values present exactly when the inner join of sessions and users on
`session.userId = user.id` filtered by `session.id = sessionId` has exactly
one row; that row is split into the session (reserved columns plus remaining
columns as attributes) and the user (id plus remaining columns as
attributes); with zero or several join rows the result is `(absent, absent)`
— the operations are total, so no error is raised. -/
theorem claim3_getSessionAndUser_join_semantics (db : DB) (sid : String)
    (hwf : WFDB db) :
    (∀ s u, joinRowsSpec db sid = [(s, u)] →
      getSessionAndUser db sid =
        (transformIntoDatabaseSession s, transformIntoDatabaseUser u) ∧
      (transformIntoDatabaseSession s).isSome = true ∧
      (transformIntoDatabaseUser u).isSome = true ∧
      (∀ d, transformIntoDatabaseSession s = some d →
        rowLookup s "id" = some (Val.str d.id) ∧
        rowLookup s "userId" = some (Val.str d.userId) ∧
        rowLookup s "expiresAt" = some (Val.time d.expiresAt) ∧
        d.attributes = s.filter (fun p => !(isReserved p.1))) ∧
      (∀ w, transformIntoDatabaseUser u = some w →
        rowLookup u "id" = some (Val.str w.id) ∧
        w.attributes = u.filter (fun p => !(decide (p.1 = "id"))))) ∧
    ((joinRowsSpec db sid).length ≠ 1 → getSessionAndUser db sid = (none, none)) := by
  constructor
  · intro s u hspec
    have hmem : (s, u) ∈ joinRowsSpec db sid := by
      rw [hspec]
      exact List.mem_singleton.mpr rfl
    have hsmem : s ∈ db.sessions ∧ u ∈ db.users := by
      unfold joinRowsSpec at hmem
      rw [List.mem_filter] at hmem
      obtain ⟨hmem, _⟩ := hmem
      rw [List.mem_flatMap] at hmem
      obtain ⟨s2, hs2, hmem⟩ := hmem
      rw [List.mem_map] at hmem
      obtain ⟨u2, hu2, heq⟩ := hmem
      injection heq with e1 e2
      subst e1
      subst e2
      exact ⟨hs2, hu2⟩
    have hgs : getSessionAndUser db sid =
        (transformIntoDatabaseSession s, transformIntoDatabaseUser u) := by
      unfold getSessionAndUser
      rw [joinRows_eq_spec, hspec]
    obtain ⟨i, u2, t, hi, hu, ht, htr⟩ := transform_session_of_wf s (hwf.1 s hsmem.1)
    obtain ⟨i3, hi3, htru⟩ := transform_user_of_wf u (hwf.2 u hsmem.2)
    refine ⟨hgs, by rw [htr]; rfl, by rw [htru]; rfl, ?_, ?_⟩
    · intro d hd
      rw [htr, Option.some.injEq] at hd
      subst hd
      exact ⟨hi, hu, ht, rfl⟩
    · intro w hw
      rw [htru, Option.some.injEq] at hw
      subst hw
      exact ⟨hi3, rfl⟩
  · intro hlen
    unfold getSessionAndUser
    rw [joinRows_eq_spec]
    rcases hj : joinRowsSpec db sid with _ | ⟨p, tail⟩
    · rfl
    · rcases tail with _ | ⟨q, tail2⟩
      · rw [hj] at hlen
        simp at hlen
      · rfl

/-- Witness for claim C3: an empty database gives a zero-row join and the
absent pair. -/
theorem claim3_witness :
    getSessionAndUser (DB.mk [] []) "s1" = (none, none) :=
  (claim3_getSessionAndUser_join_semantics (DB.mk [] []) "s1"
    (by decide)).2 (by decide)

/-! ## Claim C4: setSession then getSessionAndUser round trip -/

theorem joinRows_append (s1 s2 users : List Row) (sid : String) :
    joinRows (DB.mk (s1 ++ s2) users) sid =
      joinRows (DB.mk s1 users) sid ++ joinRows (DB.mk s2 users) sid := by
  unfold joinRows
  rw [show (DB.mk (s1 ++ s2) users).sessions = s1 ++ s2 from rfl,
    List.flatMap_append, List.filter_append]

/-- Claim C4: for a session whose attributes avoid the reserved column names
(with each attribute key occurring once, as in a JS object), whose id is
fresh, and whose `userId` matches exactly one stored user row, inserting via
`setSession` and looking up via `getSessionAndUser` returns the session
field-for-field and the referenced user's transform (present). -/
theorem claim4_setSession_roundtrip (db : DB) (S : DatabaseSession) (u : Row)
    (hattr : ∀ p ∈ S.attributes, isReserved p.1 = false)
    (hnodup : (S.attributes.map Prod.fst).Nodup)
    (hfresh : ∀ r ∈ db.sessions, rowLookup r "id" ≠ some (Val.str S.id))
    (humem : u ∈ db.users)
    (huid : rowLookup u "id" = some (Val.str S.userId))
    (huniq : db.users.countP
      (fun u2 => sqlEq (some (Val.str S.userId)) (rowLookup u2 "id")) = 1) :
    getSessionAndUser (setSession db S) S.id =
      (some S, transformIntoDatabaseUser u) ∧
    transformIntoDatabaseUser u =
      some (DatabaseUser.mk S.userId
        (u.filter (fun p => !(decide (p.1 = "id"))))) := by
  have hurow : transformIntoDatabaseUser u =
      some (DatabaseUser.mk S.userId
        (u.filter (fun p => !(decide (p.1 = "id"))))) := by
    unfold transformIntoDatabaseUser
    rw [huid]
  have hrow : setSessionRow S =
      [("id", Val.str S.id), ("userId", Val.str S.userId),
        ("expiresAt", Val.time S.expiresAt)] ++ S.attributes := by
    unfold setSessionRow
    exact objSpread_no_clash _ _
      (fun p hp => by rw [rowHasKey_reserved_base]; exact hattr p hp) hnodup
  have hlkid : rowLookup (setSessionRow S) "id" = some (Val.str S.id) := by
    rw [hrow, rowLookup_append]
    simp [rowLookup]
  have hlkuid : rowLookup (setSessionRow S) "userId" = some (Val.str S.userId) := by
    rw [hrow, rowLookup_append]
    simp [rowLookup]
  have hlkexp : rowLookup (setSessionRow S) "expiresAt" =
      some (Val.time S.expiresAt) := by
    rw [hrow, rowLookup_append]
    simp [rowLookup]
  have hfilter : db.users.filter
      (fun u2 => sqlEq (rowLookup (setSessionRow S) "userId") (rowLookup u2 "id")) =
        [u] := by
    rw [filter_congr_mem _ _
      (fun u2 => sqlEq (some (Val.str S.userId)) (rowLookup u2 "id"))
      (fun u2 _ => by rw [hlkuid])]
    apply length_one_mem_eq
    · rw [← List.countP_eq_length_filter]
      exact huniq
    · rw [List.mem_filter]
      refine ⟨humem, ?_⟩
      rw [huid]
      simp [sqlEq]
  have h1 : joinRows (DB.mk db.sessions db.users) S.id = [] :=
    joinRows_nil_of_no_match (DB.mk db.sessions db.users) S.id (fun s hs => by
      cases hc : sqlEq (rowLookup s "id") (some (Val.str S.id)) with
      | false => rfl
      | true => exact absurd ((sqlEq_some_right _ _).mp hc) (hfresh s hs))
  have h2 : joinRows (DB.mk [setSessionRow S] db.users) S.id =
      [(setSessionRow S, u)] := by
    unfold joinRows
    simp only [List.flatMap_cons, List.flatMap_nil, List.append_nil]
    rw [show (DB.mk [setSessionRow S] db.users).users = db.users from rfl, hfilter,
      List.map_cons, List.map_nil, List.filter_cons,
      if_pos (show sqlEq (rowLookup (setSessionRow S) "id")
        (some (Val.str S.id)) = true from by rw [hlkid]; simp [sqlEq]),
      List.filter_nil]
  have hjoin : joinRows (setSession db S) S.id = [(setSessionRow S, u)] := by
    have hsplit : joinRows (setSession db S) S.id =
        joinRows (DB.mk db.sessions db.users) S.id ++
          joinRows (DB.mk [setSessionRow S] db.users) S.id := by
      show joinRows (DB.mk (db.sessions ++ [setSessionRow S]) db.users) S.id = _
      exact joinRows_append _ _ _ _
    rw [hsplit, h1, h2, List.nil_append]
  have hattrEq : (setSessionRow S).filter (fun p => !(isReserved p.1)) =
      S.attributes := by
    rw [hrow, List.filter_append,
      show ([("id", Val.str S.id), ("userId", Val.str S.userId),
        ("expiresAt", Val.time S.expiresAt)].filter
          (fun p => !(isReserved p.1))) = [] from by simp [isReserved],
      List.filter_eq_self.mpr (fun p hp => by simp [hattr p hp]),
      List.nil_append]
  have htrow : transformIntoDatabaseSession (setSessionRow S) = some S := by
    unfold transformIntoDatabaseSession
    rw [hlkid, hlkuid, hlkexp]
    show some (DatabaseSession.mk S.id S.userId S.expiresAt
      ((setSessionRow S).filter (fun p => !(isReserved p.1)))) = some S
    rw [hattrEq]
  refine ⟨?_, hurow⟩
  unfold getSessionAndUser
  rw [hjoin]
  show (transformIntoDatabaseSession (setSessionRow S),
    transformIntoDatabaseUser u) = _
  rw [htrow]

/-- Witness for claim C4 at a concrete user and session. -/
theorem claim4_witness :
    getSessionAndUser
      (setSession (DB.mk [] [[("id", Val.str "u1"), ("name", Val.str "a")]])
        (DatabaseSession.mk "s1" "u1" 100 [("device", Val.str "ios")])) "s1" =
      (some (DatabaseSession.mk "s1" "u1" 100 [("device", Val.str "ios")]),
        transformIntoDatabaseUser [("id", Val.str "u1"), ("name", Val.str "a")]) :=
  (claim4_setSession_roundtrip
    (DB.mk [] [[("id", Val.str "u1"), ("name", Val.str "a")]])
    (DatabaseSession.mk "s1" "u1" 100 [("device", Val.str "ios")])
    [("id", Val.str "u1"), ("name", Val.str "a")]
    (by decide) (by decide) (by decide) (by decide) (by decide) (by decide)).1

end LuciaDrizzle
